import Mathlib

/-!
Shallow embedding of the block-placement puzzle engine of
`src/pages/BlockGame.jsx` (the `BlockGame` React component).

The engine keeps its whole game state in one mutable record (`G.current`).
Pure helpers (`canPlace`, `hasAnyMove`, the piece catalog) are translated
directly; the stateful handlers (`selectPiece`, `drop`, `clearLines`, the
clear-timeout body and the completion callback) are translated as explicit
state-passing functions on a `GameState` record.  JavaScript arrays become
`List`s, the `null`-or-color cells become `Option String`, JS truthiness of
a cell becomes `jsTruthy`, and the two random draws (`randPiece`) that the
code performs at refill time are passed in as explicit arguments.  The
JavaScript exception that `drop` would raise when the selected slot holds
`null` (reading `null.cells`) is modelled by returning `none`.
-/

namespace BlockGame

/-- `GRID_SIZE` from the source: the board is 8×8. -/
abbrev GRID_SIZE : Nat := 8

/-- A shape of the catalog: relative `(rowOffset, colOffset)` cells plus a
color tag, exactly as in the `PIECES` literal of the source. -/
structure Piece where
  cells : List (Int × Int)
  color : String
deriving DecidableEq, Repr, Inhabited

/-- The fixed 26-entry piece catalog `PIECES` of the source, verbatim. -/
def PIECES : List Piece := [
  ⟨[(0,0)],                                                  "#f472b6"⟩,
  ⟨[(0,0),(0,1)],                                            "#4ade80"⟩,
  ⟨[(0,0),(1,0)],                                            "#4ade80"⟩,
  ⟨[(0,0),(0,1),(0,2)],                                      "#60a5fa"⟩,
  ⟨[(0,0),(1,0),(2,0)],                                      "#60a5fa"⟩,
  ⟨[(0,0),(0,1),(0,2),(0,3)],                                "#22d3ee"⟩,
  ⟨[(0,0),(1,0),(2,0),(3,0)],                                "#22d3ee"⟩,
  ⟨[(0,0),(0,1),(0,2),(0,3),(0,4)],                          "#a3e635"⟩,
  ⟨[(0,0),(1,0),(2,0),(3,0),(4,0)],                          "#a3e635"⟩,
  ⟨[(0,0),(0,1),(1,0),(1,1)],                                "#fbbf24"⟩,
  ⟨[(0,0),(0,1),(0,2),(1,0),(1,1),(1,2),(2,0),(2,1),(2,2)],  "#fde047"⟩,
  ⟨[(0,0),(0,1),(0,2),(1,0),(1,1),(1,2)],                    "#fb923c"⟩,
  ⟨[(0,0),(0,1),(1,0),(1,1),(2,0),(2,1)],                    "#fb923c"⟩,
  ⟨[(0,0),(1,0),(2,0),(2,1)],                                "#c084fc"⟩,
  ⟨[(0,1),(1,1),(2,0),(2,1)],                                "#c084fc"⟩,
  ⟨[(0,0),(0,1),(1,0),(2,0)],                                "#c084fc"⟩,
  ⟨[(0,0),(0,1),(1,1),(2,1)],                                "#c084fc"⟩,
  ⟨[(0,0),(0,1),(0,2),(1,1)],                                "#e879f9"⟩,
  ⟨[(0,0),(1,0),(2,0),(1,1)],                                "#e879f9"⟩,
  ⟨[(0,1),(0,2),(1,0),(1,1)],                                "#f87171"⟩,
  ⟨[(0,0),(0,1),(1,1),(1,2)],                                "#f87171"⟩,
  ⟨[(0,1),(1,0),(1,1),(1,2),(2,1)],                          "#38bdf8"⟩,
  ⟨[(0,0),(0,1),(1,0)],                                      "#34d399"⟩,
  ⟨[(0,0),(0,1),(1,1)],                                      "#34d399"⟩,
  ⟨[(0,0),(1,0),(1,1)],                                      "#34d399"⟩,
  ⟨[(0,1),(1,0),(1,1)],                                      "#34d399"⟩]

/-- A grid cell: `null` (Empty) or a color string (Filled). -/
abbrev Cell := Option String

/-- The board: a row-major list of rows, as the JS array of arrays. -/
abbrev Grid := List (List Cell)

/-- JavaScript truthiness of a cell value: `null` and the empty string are
falsy, every other string is truthy. -/
def jsTruthy : Cell → Bool
  | none => false
  | some s => !(s == "")

/-- `makeGrid()` from the source: an 8×8 board of `null`s. -/
def makeGrid : Grid := List.replicate GRID_SIZE (List.replicate GRID_SIZE none)

/-- Read `grid[r][c]` for `Nat` indices; out-of-range reads give `none`
(the source only reads in bounds). -/
def gridGetN (grid : Grid) (r c : Nat) : Cell := (grid.getD r []).getD c none

/-- Read `grid[r][c]` for JS-number (integer) indices. -/
def gridGet (grid : Grid) (r c : Int) : Cell :=
  if 0 ≤ r ∧ 0 ≤ c then gridGetN grid r.toNat c.toNat else none

/-- Write `grid[r][c] = v` for `Nat` indices (no-op out of range, which the
source never does). -/
def gridSetN (grid : Grid) (r c : Nat) (v : Cell) : Grid :=
  grid.set r ((grid.getD r []).set c v)

/-- Write `grid[r][c] = v` for integer indices. -/
def gridSetI (grid : Grid) (r c : Int) (v : Cell) : Grid :=
  if 0 ≤ r ∧ 0 ≤ c then gridSetN grid r.toNat c.toNat v else grid

/-- `canPlace(grid, piece, sr, sc)` from the source: for each shape cell the
absolute cell must be in bounds and not truthy (the JS loop returns `false`
on `r<0 || r>=GRID_SIZE || c<0 || c>=GRID_SIZE || grid[r][c]`). -/
def canPlace (grid : Grid) (p : Piece) (sr sc : Int) : Bool :=
  p.cells.all fun d =>
    let r := sr + d.1
    let c := sc + d.2
    !(decide (r < 0) || decide ((GRID_SIZE : Int) ≤ r) ||
      decide (c < 0) || decide ((GRID_SIZE : Int) ≤ c) ||
      jsTruthy (gridGet grid r c))

/-- `hasAnyMove(grid, pieces)` from the source: some non-null tray piece has
a legal anchor somewhere in `[0,8) × [0,8)`. -/
def hasAnyMove (grid : Grid) (pieces : List (Option Piece)) : Bool :=
  pieces.any fun po =>
    match po with
    | none => false
    | some p =>
      (List.range GRID_SIZE).any fun r =>
        (List.range GRID_SIZE).any fun c =>
          canPlace grid p (r : Int) (c : Int)

/-- The game state record `G.current` of the source: the fields the engine
reads and writes ( `hoverR`/`hoverC` are render-only hover coordinates and
are omitted; the game-over message string is modelled as the final score it
carries). -/
structure GameState where
  grid : Grid
  score : Nat
  linesCleared : Nat
  streak : Nat
  pieces : List (Option Piece)
  selIdx : Option Nat
  placing : Bool
  flashCells : Finset Nat
  gameOverMsg : Option Nat
  comboText : String
  best : Nat
deriving DecidableEq, Inhabited

/-- `startGame()` from the source: fresh empty board, three random pieces
(passed explicitly), best score read from storage (passed explicitly). -/
def startGame (storedBest : Nat) (p1 p2 p3 : Piece) : GameState :=
  { grid := makeGrid
    score := 0
    linesCleared := 0
    streak := 0
    pieces := [some p1, some p2, some p3]
    selIdx := none
    placing := false
    flashCells := ∅
    gameOverMsg := none
    comboText := ""
    best := storedBest }

/-- `selectPiece(idx)` from the source: no-op on an empty slot, otherwise
toggle the selection.  Note the source has no `placing` guard here. -/
def selectPiece (g : GameState) (idx : Nat) : GameState :=
  match g.pieces.getD idx none with
  | none => g
  | some _ =>
    { g with selIdx := if g.selIdx = some idx then none else some idx }

/-- The cell-filling loop of `drop`: `for (const [dr,dc] of p.cells)
g.grid[r+dr][c+dc] = p.color`. -/
def placeCellsList (grid : Grid) (color : String) (r c : Int)
    (l : List (Int × Int)) : Grid :=
  l.foldl (fun gr d => gridSetI gr (r + d.1) (c + d.2) (some color)) grid

/-- Fill a whole piece at anchor `(r, c)`. -/
def placeCells (grid : Grid) (p : Piece) (r c : Int) : Grid :=
  placeCellsList grid p.color r c p.cells

/-- The synchronous mutation block of `drop` (source lines 184–188): set
`placing`, fill the cells, add the cell count to the score, empty the tray
slot, clear the selection. -/
def placeStep (g : GameState) (idx : Nat) (p : Piece) (r c : Int) :
    GameState :=
  { g with placing := true
           grid := placeCells g.grid p r c
           score := g.score + p.cells.length
           pieces := g.pieces.set idx none
           selIdx := none }

/-- `rowsToClear` of `clearLines`: the rows whose 8 cells are all truthy. -/
def rowsToClear (grid : Grid) : List Nat :=
  (List.range GRID_SIZE).filter fun r => (grid.getD r []).all jsTruthy

/-- `colsToClear` of `clearLines`: the columns full in every row. -/
def colsToClear (grid : Grid) : List Nat :=
  (List.range GRID_SIZE).filter fun c =>
    grid.all fun row => jsTruthy (row.getD c none)

/-- The `labels` array of `clearLines`. -/
def comboLabels : List String :=
  ["", "", "DOUBLE!", "TRIPLE!", "QUAD!", "MEGA COMBO!"]

/-- The combo banner text `clearLines` computes from the new streak. -/
def comboTextFor (streak : Nat) : String :=
  if streak > 1 then
    let s := comboLabels.getD (min streak (comboLabels.length - 1)) ""
    if s == "" then toString streak ++ "× COMBO!" else s
  else ""

/-- The `toFlash` set of `clearLines`: keys `r*8+c` of every cell in a full
row, then every cell in a full column (a JS `Set`, so duplicates merge). -/
def flashSet (rows cols : List Nat) : Finset Nat :=
  let s1 := rows.foldl
    (fun s r => (List.range GRID_SIZE).foldl
      (fun s c => insert (r * GRID_SIZE + c) s) s) (∅ : Finset Nat)
  cols.foldl
    (fun s c => (List.range GRID_SIZE).foldl
      (fun s r => insert (r * GRID_SIZE + c) s) s) s1

/-- The synchronous bonus block of `clearLines` when `count > 0`: increment
the streak, score `count * 8 * 10 * bonus`, bump the lines counter and the
best score, set the combo text and the flash set. -/
def clearBonusState (g : GameState) (rows cols : List Nat) : GameState :=
  let count := rows.length + cols.length
  let streak := g.streak + 1
  let bonus := if streak > 1 then streak else 1
  let pts := count * GRID_SIZE * 10 * bonus
  let score := g.score + pts
  { g with streak := streak
           score := score
           linesCleared := g.linesCleared + count
           best := if score > g.best then score else g.best
           comboText := comboTextFor streak
           flashCells := flashSet rows cols }

/-- The two row/column clearing loops of the `setTimeout` body of
`clearLines`. -/
def clearCells (grid : Grid) (rows cols : List Nat) : Grid :=
  let g1 := rows.foldl
    (fun gr r => (List.range GRID_SIZE).foldl
      (fun gr c => gridSetN gr r c none) gr) grid
  cols.foldl
    (fun gr c => (List.range GRID_SIZE).foldl
      (fun gr r => gridSetN gr r c none) gr) g1

/-- Null out a list of cells in order — the common shape of the two clearing
loops, used to reason about `clearCells`. -/
def setCellsNone (grid : Grid) (ps : List (Nat × Nat)) : Grid :=
  ps.foldl (fun gr rc => gridSetN gr rc.1 rc.2 none) grid

/-- All cells of the given rows followed by all cells of the given columns:
the cell sequence `clearCells` nulls out. -/
def rowColCells (rows cols : List Nat) : List (Nat × Nat) :=
  (rows.flatMap fun r => (List.range GRID_SIZE).map fun c => (r, c)) ++
  (cols.flatMap fun c => (List.range GRID_SIZE).map fun r => (r, c))

/-- The `setTimeout` body of `clearLines`: null out the captured full rows
and columns, reset the flash set and the combo text. -/
def clearFire (g : GameState) (rows cols : List Nat) : GameState :=
  { g with grid := clearCells g.grid rows cols
           flashCells := ∅
           comboText := "" }

/-- The tray-refill conditional of the `done` callback in `drop`: refill all
three slots only when every slot is empty. -/
def refillStep (g : GameState) (f1 f2 f3 : Piece) : GameState :=
  if g.pieces.all Option.isNone then
    { g with pieces := [some f1, some f2, some f3] }
  else g

/-- The best-score update `if (g.score > g.best) { g.best = g.score; … }`
(the persisted-store write is outside the model). -/
def bestStep (g : GameState) : GameState :=
  if g.score > g.best then { g with best := g.score } else g

/-- The `done` callback passed by `drop` to `clearLines` (source lines
192–205): drop the `placing` flag, refill an exhausted tray, update the best
score, and declare game over when no move remains (with the source's inner,
already-settled best update repeated before the message is set). -/
def doneCallback (g : GameState) (f1 f2 f3 : Piece) : GameState :=
  let g2 := bestStep (refillStep { g with placing := false } f1 f2 f3)
  if hasAnyMove g2.grid g2.pieces then g2
  else
    let g3 := bestStep g2
    { g3 with gameOverMsg := some g3.score }

/-- `clearLines(done)` run to completion: the synchronous detection and
bonus, then (when something cleared) the timeout body, then the `done`
callback.  With `count = 0` the source resets the streak and calls `done`
immediately, clearing nothing. -/
def clearLines (g : GameState) (f1 f2 f3 : Piece) : GameState :=
  let rows := rowsToClear g.grid
  let cols := colsToClear g.grid
  if rows.length + cols.length = 0 then
    doneCallback { g with streak := 0, comboText := "" } f1 f2 f3
  else
    doneCallback (clearFire (clearBonusState g rows cols) rows cols) f1 f2 f3

/-- `drop(r, c)` run to completion (placement, clear, callback).  `none`
models the JS `TypeError` raised when the selected slot holds `null`
(`canPlace` would read `null.cells`); the source's guards return early —
unchanged state — when `placing` is set, nothing is selected, or `canPlace`
fails.  `f1 f2 f3` are the random draws a refill would consume. -/
def drop (g : GameState) (r c : Int) (f1 f2 f3 : Piece) :
    Option GameState :=
  if g.placing then some g else
  match g.selIdx with
  | none => some g
  | some idx =>
    match g.pieces.getD idx none with
    | none => none
    | some p =>
      if canPlace g.grid p r c then
        some (clearLines (placeStep g idx p r c) f1 f2 f3)
      else some g

/-!
The source keeps the live game state in the ref cell `G.current`; both the
`setTimeout` body of `clearLines` and the `done` callback close over the
*object* `g` that was current when `drop` ran, while `startGame` replaces
`G.current` with a freshly allocated object.  To settle the cancellation
claim we model this object identity explicitly: a heap of game-state
objects, the index `cur` that `G.current` holds, and the pending timeout
(the object it closed over plus the captured `rowsToClear`/`colsToClear`).
-/

/-- The mutable environment of the component: allocated game-state objects,
the one `G.current` points at, and an optional pending clear timeout. -/
structure World where
  heap : List GameState
  cur : Nat
  pending : Option (Nat × List Nat × List Nat)
deriving DecidableEq

/-- `getState()`: the object `G.current` points at. -/
def getStateW (w : World) : Option GameState := w.heap[w.cur]?

/-- `startGame()` at world level: allocate a fresh state object and point
`G.current` at it.  The source does not touch any pending timer. -/
def startGameW (w : World) (storedBest : Nat) (p1 p2 p3 : Piece) : World :=
  { heap := w.heap ++ [startGame storedBest p1 p2 p3]
    cur := w.heap.length
    pending := w.pending }

/-- The pending clear timeout firing: it mutates the object it closed over
(running the `setTimeout` body and then `done` on it), never `G.current`. -/
def fireTimerW (w : World) (f1 f2 f3 : Piece) : World :=
  match w.pending with
  | none => w
  | some (tid, rows, cols) =>
    { heap := w.heap.set tid
        (doneCallback (clearFire (w.heap.getD tid default) rows cols)
          f1 f2 f3)
      cur := w.cur
      pending := none }

/-! Concrete fixtures used by witnesses and the counterexample. -/

/-- The 1-cell catalog piece. -/
def pieceS : Piece := ⟨[(0, 0)], "#f472b6"⟩

/-- A state in mid-placement (`placing` set) whose first tray slot still
holds a piece and with nothing selected. -/
def placingState : GameState :=
  { grid := makeGrid
    score := 6
    linesCleared := 0
    streak := 0
    pieces := [some pieceS, none, none]
    selIdx := none
    placing := true
    flashCells := ∅
    gameOverMsg := none
    comboText := ""
    best := 0 }

/-- A quiescent state with the single-cell piece selected in slot 0 and row
0 already filled in columns 0–6. -/
def selState : GameState :=
  { grid := (List.range 7).foldl
      (fun gr c => gridSetN gr 0 c (some "#60a5fa")) makeGrid
    score := 7
    linesCleared := 0
    streak := 0
    pieces := [some pieceS, some pieceS, some pieceS]
    selIdx := some 0
    placing := false
    flashCells := ∅
    gameOverMsg := none
    comboText := ""
    best := 0 }

/-- A post-placement state whose row 0 is completely filled (as right after
dropping the last cell into it). -/
def rowFullState : GameState :=
  { grid := (List.range 8).foldl
      (fun gr c => gridSetN gr 0 c (some "#f472b6")) makeGrid
    score := 8
    linesCleared := 0
    streak := 0
    pieces := [none, some pieceS, some pieceS]
    selIdx := none
    placing := true
    flashCells := ∅
    gameOverMsg := none
    comboText := ""
    best := 0 }

/-- A world holding one game object with a pending clear of row 0. -/
def worldFix : World :=
  { heap := [selState]
    cur := 0
    pending := some (0, [0], []) }

/-- Wellformedness of a board: 8 rows of 8 cells (true of `makeGrid` and
preserved by every mutation the engine performs). -/
def GridWF (grid : Grid) : Prop :=
  grid.length = GRID_SIZE ∧ ∀ row ∈ grid, row.length = GRID_SIZE

/-- No cell stores the empty string as a color (true of every reachable
board: the only stored strings are catalog colors), so JS truthiness of a
cell coincides with being Filled. -/
def NoEmptyColor (grid : Grid) : Prop :=
  ∀ row ∈ grid, ∀ cell ∈ row, cell ≠ some ""

instance : DecidablePred GridWF := fun grid => by
  unfold GridWF; infer_instance

instance : DecidablePred NoEmptyColor := fun grid => by
  unfold NoEmptyColor; infer_instance

/-! Basic facts about list reads and writes, used throughout. -/

theorem getD_lt {α : Type} (l : List α) (i : Nat) (d : α) (h : i < l.length) :
    l.getD i d = l[i] := by
  rw [List.getD_eq_getElem?_getD, List.getElem?_eq_getElem h, Option.getD_some]

theorem getD_set_self {α : Type} (l : List α) (i : Nat) (a d : α)
    (h : i < l.length) : (l.set i a).getD i d = a := by
  rw [List.getD_eq_getElem?_getD, List.getElem?_set_self h, Option.getD_some]

theorem getD_set_ne {α : Type} (l : List α) (i j : Nat) (a d : α)
    (h : i ≠ j) : (l.set i a).getD j d = l.getD j d := by
  rw [List.getD_eq_getElem?_getD, List.getElem?_set_ne h,
    ← List.getD_eq_getElem?_getD]

theorem gridGetN_gridSetN (grid : Grid) (r c r' c' : Nat) (v : Cell)
    (hr : r < grid.length) (hc : c < (grid.getD r []).length) :
    gridGetN (gridSetN grid r c v) r' c' =
      if r = r' ∧ c = c' then v else gridGetN grid r' c' := by
  unfold gridGetN gridSetN
  by_cases h1 : r = r'
  · subst h1
    rw [getD_set_self _ _ _ _ hr]
    by_cases h2 : c = c'
    · subst h2
      rw [getD_set_self _ _ _ _ hc]
      simp
    · rw [getD_set_ne _ _ _ _ _ h2]
      simp [h2]
  · rw [getD_set_ne _ _ _ _ _ h1]
    simp [h1]

theorem gridGetN_gridSetN_ne (grid : Grid) (r c r' c' : Nat) (v : Cell)
    (h : ¬(r = r' ∧ c = c')) :
    gridGetN (gridSetN grid r c v) r' c' = gridGetN grid r' c' := by
  by_cases hr : r < grid.length
  · by_cases hc : c < (grid.getD r []).length
    · rw [gridGetN_gridSetN grid r c r' c' v hr hc, if_neg h]
    · have hrow : (grid.getD r []).set c v = grid.getD r [] :=
        List.set_eq_of_length_le (by omega)
      unfold gridGetN gridSetN
      rw [hrow]
      by_cases h1 : r = r'
      · subst h1
        rw [getD_set_self _ _ _ _ hr]
      · rw [getD_set_ne _ _ _ _ _ h1]
  · unfold gridGetN gridSetN
    rw [List.set_eq_of_length_le (l := grid) (by omega)]

theorem gridSetN_WF {grid : Grid} (h : GridWF grid) (r c : Nat) (v : Cell) :
    GridWF (gridSetN grid r c v) := by
  obtain ⟨h1, h2⟩ := h
  by_cases hr : r < grid.length
  · refine ⟨by simpa [gridSetN] using h1, ?_⟩
    intro row hrow
    rcases List.mem_or_eq_of_mem_set hrow with hmem | heq
    · exact h2 row hmem
    · subst heq
      rw [List.length_set, getD_lt _ _ _ hr]
      exact h2 _ (List.getElem_mem hr)
  · unfold gridSetN
    rw [List.set_eq_of_length_le (l := grid) (by omega)]
    exact ⟨h1, h2⟩

theorem gridSetI_WF {grid : Grid} (h : GridWF grid) (r c : Int) (v : Cell) :
    GridWF (gridSetI grid r c v) := by
  unfold gridSetI
  split
  · exact gridSetN_WF h _ _ _
  · exact h

theorem gridGetN_ne_empty {grid : Grid} (hne : NoEmptyColor grid)
    (r c : Nat) : gridGetN grid r c ≠ some "" := by
  unfold gridGetN
  intro h
  by_cases hr : r < grid.length
  · rw [getD_lt _ _ _ hr] at h
    by_cases hc : c < grid[r].length
    · rw [getD_lt _ _ _ hc] at h
      exact hne grid[r] (List.getElem_mem hr) _ (List.getElem_mem hc) h
    · have h0 : grid[r][c]? = none := List.getElem?_eq_none (by omega)
      rw [List.getD_eq_getElem?_getD, h0] at h
      simp at h
  · have h0 : grid[r]? = none := List.getElem?_eq_none (by omega)
    rw [List.getD_eq_getElem?_getD (l := grid), h0] at h
    simp at h

theorem gridGet_ne_empty {grid : Grid} (hne : NoEmptyColor grid)
    (r c : Int) : gridGet grid r c ≠ some "" := by
  unfold gridGet
  split
  · exact gridGetN_ne_empty hne _ _
  · simp

theorem jsTruthy_some {s : String} (h : s ≠ "") :
    jsTruthy (some s) = true := by
  simp [jsTruthy, h]

theorem jsTruthy_eq_false_iff {grid : Grid} (hne : NoEmptyColor grid)
    (r c : Int) :
    jsTruthy (gridGet grid r c) = false ↔ gridGet grid r c = none := by
  rcases h : gridGet grid r c with _ | s
  · simp [jsTruthy]
  · have hs : s ≠ "" := by
      intro h0
      exact gridGet_ne_empty hne r c (by rw [h, h0])
    simp [jsTruthy, hs]

/-- Pointwise characterization of `canPlace` at the JS-truthiness level:
per shape cell, both coordinates in `[0, 8)` and the cell not truthy. -/
theorem canPlace_iff_truthy (grid : Grid) (p : Piece) (sr sc : Int) :
    canPlace grid p sr sc = true ↔
      ∀ d ∈ p.cells,
        0 ≤ sr + d.1 ∧ sr + d.1 < (GRID_SIZE : Int) ∧
        0 ≤ sc + d.2 ∧ sc + d.2 < (GRID_SIZE : Int) ∧
        jsTruthy (gridGet grid (sr + d.1) (sc + d.2)) = false := by
  unfold canPlace
  rw [List.all_eq_true]
  constructor
  · intro h d hd
    have := h d hd
    simp only [Bool.not_eq_true', Bool.or_eq_false_iff,
      decide_eq_false_iff_not, not_lt, not_le] at this
    exact ⟨this.1.1.1.1, this.1.1.1.2, this.1.1.2, this.1.2, this.2⟩
  · intro h d hd
    obtain ⟨h1, h2, h3, h4, h5⟩ := h d hd
    simp only [Bool.not_eq_true', Bool.or_eq_false_iff,
      decide_eq_false_iff_not, not_lt, not_le]
    exact ⟨⟨⟨⟨h1, h2⟩, h3⟩, h4⟩, h5⟩

/-- C1: `canPlace(grid, shape, row, col)` is true iff every shape cell,
translated by the anchor, lies within `[0, 8)` in both coordinates and the
grid cell there is Empty.  (`canPlace` is a plain function of its
arguments in this embedding, as in the source, which only reads the grid —
so it has no side effects.) -/
theorem canPlace_correct (grid : Grid) (p : Piece) (sr sc : Int)
    (hne : NoEmptyColor grid) :
    canPlace grid p sr sc = true ↔
      ∀ d ∈ p.cells,
        0 ≤ sr + d.1 ∧ sr + d.1 < (GRID_SIZE : Int) ∧
        0 ≤ sc + d.2 ∧ sc + d.2 < (GRID_SIZE : Int) ∧
        gridGet grid (sr + d.1) (sc + d.2) = none := by
  rw [canPlace_iff_truthy]
  constructor
  · intro h d hd
    obtain ⟨h1, h2, h3, h4, h5⟩ := h d hd
    exact ⟨h1, h2, h3, h4, (jsTruthy_eq_false_iff hne _ _).1 h5⟩
  · intro h d hd
    obtain ⟨h1, h2, h3, h4, h5⟩ := h d hd
    exact ⟨h1, h2, h3, h4, (jsTruthy_eq_false_iff hne _ _).2 h5⟩

/-- Witness for C1 at a concrete input: the 1×2 bar anchored at `(0, 7)` on
the empty board (its second cell falls outside the board, and indeed both
sides of the equivalence are false). -/
theorem canPlace_correct_witness :
    NoEmptyColor makeGrid ∧
    (canPlace makeGrid ⟨[(0, 0), (0, 1)], "#4ade80"⟩ 0 7 = true ↔
      ∀ d ∈ [((0 : Int), (0 : Int)), (0, 1)],
        0 ≤ 0 + d.1 ∧ 0 + d.1 < (GRID_SIZE : Int) ∧
        0 ≤ 7 + d.2 ∧ 7 + d.2 < (GRID_SIZE : Int) ∧
        gridGet makeGrid (0 + d.1) (7 + d.2) = none) :=
  ⟨by decide, canPlace_correct makeGrid ⟨[(0, 0), (0, 1)], "#4ade80"⟩ 0 7
    (by decide)⟩

/-- C10: every catalog shape has at least one cell, all offsets lie in
`[0, 8)` in both coordinates, and — because every shape touches offset row
0 and offset column 0 — any anchor admitting a placement of a catalog shape
on any grid lies in `[0, 8) × [0, 8)`, so the game-over search over those
anchors covers every possible placement. -/
theorem catalog_shapes_wellformed :
    (∀ p ∈ PIECES, p.cells ≠ [] ∧ ∀ d ∈ p.cells,
        0 ≤ d.1 ∧ d.1 < (GRID_SIZE : Int) ∧
        0 ≤ d.2 ∧ d.2 < (GRID_SIZE : Int)) ∧
    (∀ p ∈ PIECES, ∀ grid : Grid, ∀ sr sc : Int,
        canPlace grid p sr sc = true →
        0 ≤ sr ∧ sr < (GRID_SIZE : Int) ∧
        0 ≤ sc ∧ sc < (GRID_SIZE : Int)) := by
  constructor
  · decide
  · intro p hp grid sr sc hcan
    have hz : ∀ p ∈ PIECES,
        (∃ d ∈ p.cells, d.1 = 0) ∧ (∃ d ∈ p.cells, d.2 = 0) := by decide
    obtain ⟨⟨d1, hd1, hz1⟩, d2, hd2, hz2⟩ := hz p hp
    have hb := (canPlace_iff_truthy grid p sr sc).1 hcan
    obtain ⟨a1, b1, -, -, -⟩ := hb d1 hd1
    obtain ⟨-, -, a2, b2, -⟩ := hb d2 hd2
    rw [hz1] at a1 b1
    rw [hz2] at a2 b2
    refine ⟨by omega, by omega, by omega, by omega⟩

/-! Frame lemmas: which state fields each step of the pipeline leaves
untouched. -/

@[simp] theorem refillStep_grid (g : GameState) (f1 f2 f3 : Piece) :
    (refillStep g f1 f2 f3).grid = g.grid := by
  unfold refillStep; split <;> rfl

@[simp] theorem refillStep_score (g : GameState) (f1 f2 f3 : Piece) :
    (refillStep g f1 f2 f3).score = g.score := by
  unfold refillStep; split <;> rfl

@[simp] theorem refillStep_best (g : GameState) (f1 f2 f3 : Piece) :
    (refillStep g f1 f2 f3).best = g.best := by
  unfold refillStep; split <;> rfl

@[simp] theorem refillStep_streak (g : GameState) (f1 f2 f3 : Piece) :
    (refillStep g f1 f2 f3).streak = g.streak := by
  unfold refillStep; split <;> rfl

@[simp] theorem refillStep_linesCleared (g : GameState) (f1 f2 f3 : Piece) :
    (refillStep g f1 f2 f3).linesCleared = g.linesCleared := by
  unfold refillStep; split <;> rfl

@[simp] theorem refillStep_selIdx (g : GameState) (f1 f2 f3 : Piece) :
    (refillStep g f1 f2 f3).selIdx = g.selIdx := by
  unfold refillStep; split <;> rfl

@[simp] theorem refillStep_placing (g : GameState) (f1 f2 f3 : Piece) :
    (refillStep g f1 f2 f3).placing = g.placing := by
  unfold refillStep; split <;> rfl

@[simp] theorem refillStep_gameOverMsg (g : GameState) (f1 f2 f3 : Piece) :
    (refillStep g f1 f2 f3).gameOverMsg = g.gameOverMsg := by
  unfold refillStep; split <;> rfl

theorem refillStep_pieces (g : GameState) (f1 f2 f3 : Piece) :
    (refillStep g f1 f2 f3).pieces =
      if g.pieces.all Option.isNone then [some f1, some f2, some f3]
      else g.pieces := by
  unfold refillStep; split <;> simp_all

@[simp] theorem bestStep_grid (g : GameState) :
    (bestStep g).grid = g.grid := by
  unfold bestStep; split <;> rfl

@[simp] theorem bestStep_score (g : GameState) :
    (bestStep g).score = g.score := by
  unfold bestStep; split <;> rfl

@[simp] theorem bestStep_streak (g : GameState) :
    (bestStep g).streak = g.streak := by
  unfold bestStep; split <;> rfl

@[simp] theorem bestStep_linesCleared (g : GameState) :
    (bestStep g).linesCleared = g.linesCleared := by
  unfold bestStep; split <;> rfl

@[simp] theorem bestStep_pieces (g : GameState) :
    (bestStep g).pieces = g.pieces := by
  unfold bestStep; split <;> rfl

@[simp] theorem bestStep_selIdx (g : GameState) :
    (bestStep g).selIdx = g.selIdx := by
  unfold bestStep; split <;> rfl

@[simp] theorem bestStep_placing (g : GameState) :
    (bestStep g).placing = g.placing := by
  unfold bestStep; split <;> rfl

@[simp] theorem bestStep_gameOverMsg (g : GameState) :
    (bestStep g).gameOverMsg = g.gameOverMsg := by
  unfold bestStep; split <;> rfl

@[simp] theorem clearFire_score (g : GameState) (rows cols : List Nat) :
    (clearFire g rows cols).score = g.score := rfl

@[simp] theorem clearFire_streak (g : GameState) (rows cols : List Nat) :
    (clearFire g rows cols).streak = g.streak := rfl

@[simp] theorem clearFire_linesCleared (g : GameState) (rows cols : List Nat) :
    (clearFire g rows cols).linesCleared = g.linesCleared := rfl

@[simp] theorem clearFire_pieces (g : GameState) (rows cols : List Nat) :
    (clearFire g rows cols).pieces = g.pieces := rfl

@[simp] theorem clearFire_gameOverMsg (g : GameState) (rows cols : List Nat) :
    (clearFire g rows cols).gameOverMsg = g.gameOverMsg := rfl

@[simp] theorem clearFire_grid (g : GameState) (rows cols : List Nat) :
    (clearFire g rows cols).grid = clearCells g.grid rows cols := rfl

@[simp] theorem clearBonusState_streak (g : GameState) (rows cols : List Nat) :
    (clearBonusState g rows cols).streak = g.streak + 1 := rfl

@[simp] theorem clearBonusState_score (g : GameState) (rows cols : List Nat) :
    (clearBonusState g rows cols).score = g.score +
      (rows.length + cols.length) * GRID_SIZE * 10 *
        (if g.streak + 1 > 1 then g.streak + 1 else 1) := rfl

@[simp] theorem clearBonusState_linesCleared (g : GameState)
    (rows cols : List Nat) :
    (clearBonusState g rows cols).linesCleared =
      g.linesCleared + (rows.length + cols.length) := rfl

@[simp] theorem clearBonusState_grid (g : GameState) (rows cols : List Nat) :
    (clearBonusState g rows cols).grid = g.grid := rfl

@[simp] theorem clearBonusState_pieces (g : GameState) (rows cols : List Nat) :
    (clearBonusState g rows cols).pieces = g.pieces := rfl

@[simp] theorem clearBonusState_gameOverMsg (g : GameState)
    (rows cols : List Nat) :
    (clearBonusState g rows cols).gameOverMsg = g.gameOverMsg := rfl

@[simp] theorem doneCallback_grid (g : GameState) (f1 f2 f3 : Piece) :
    (doneCallback g f1 f2 f3).grid = g.grid := by
  simp only [doneCallback]; split <;> simp

@[simp] theorem doneCallback_score (g : GameState) (f1 f2 f3 : Piece) :
    (doneCallback g f1 f2 f3).score = g.score := by
  simp only [doneCallback]; split <;> simp

@[simp] theorem doneCallback_streak (g : GameState) (f1 f2 f3 : Piece) :
    (doneCallback g f1 f2 f3).streak = g.streak := by
  simp only [doneCallback]; split <;> simp

@[simp] theorem doneCallback_linesCleared (g : GameState) (f1 f2 f3 : Piece) :
    (doneCallback g f1 f2 f3).linesCleared = g.linesCleared := by
  simp only [doneCallback]; split <;> simp

theorem doneCallback_pieces (g : GameState) (f1 f2 f3 : Piece) :
    (doneCallback g f1 f2 f3).pieces =
      (refillStep { g with placing := false } f1 f2 f3).pieces := by
  simp only [doneCallback]; split <;> simp

theorem doneCallback_gameOverMsg (g : GameState) (f1 f2 f3 : Piece) :
    (doneCallback g f1 f2 f3).gameOverMsg =
      if hasAnyMove g.grid
          (refillStep { g with placing := false } f1 f2 f3).pieces
      then g.gameOverMsg else some g.score := by
  simp only [doneCallback, bestStep_grid, bestStep_pieces, refillStep_grid]
  split <;> simp

/-- `hasAnyMove` unfolded into an existential over the non-empty tray slots
and the searched anchors. -/
theorem hasAnyMove_iff (grid : Grid) (pieces : List (Option Piece)) :
    hasAnyMove grid pieces = true ↔
      ∃ po ∈ pieces, ∃ p : Piece, po = some p ∧
        ∃ r c : Nat, r < GRID_SIZE ∧ c < GRID_SIZE ∧
          canPlace grid p (r : Int) (c : Int) = true := by
  unfold hasAnyMove
  rw [List.any_eq_true]
  constructor
  · rintro ⟨po, hpo, hb⟩
    rcases po with _ | p
    · simp at hb
    · simp only [List.any_eq_true, List.mem_range] at hb
      obtain ⟨r, hr, c, hc, hb⟩ := hb
      exact ⟨some p, hpo, p, rfl, r, c, hr, hc, hb⟩
  · rintro ⟨po, hpo, p, rfl, r, c, hr, hc, hb⟩
    refine ⟨some p, hpo, ?_⟩
    simp only [List.any_eq_true, List.mem_range]
    exact ⟨r, hr, c, hc, hb⟩

/-- C2: on the post-placement state the clear step either (count = 0)
resets the streak and changes neither score, grid nor lines counter, or
(count > 0) increments the streak by exactly 1, adds
`count * 8 * 10 * (streak if streak > 1 else 1)` — with the post-increment
streak — to the score, and adds `count` to the lines-cleared counter. -/
theorem clear_step_scoring (g : GameState) (f1 f2 f3 : Piece) :
    ((rowsToClear g.grid).length + (colsToClear g.grid).length = 0 →
      (clearLines g f1 f2 f3).streak = 0 ∧
      (clearLines g f1 f2 f3).score = g.score ∧
      (clearLines g f1 f2 f3).grid = g.grid ∧
      (clearLines g f1 f2 f3).linesCleared = g.linesCleared) ∧
    ((rowsToClear g.grid).length + (colsToClear g.grid).length ≠ 0 →
      (clearLines g f1 f2 f3).streak = g.streak + 1 ∧
      (clearLines g f1 f2 f3).score = g.score +
        ((rowsToClear g.grid).length + (colsToClear g.grid).length) *
          GRID_SIZE * 10 *
          (if g.streak + 1 > 1 then g.streak + 1 else 1) ∧
      (clearLines g f1 f2 f3).linesCleared = g.linesCleared +
        ((rowsToClear g.grid).length + (colsToClear g.grid).length)) := by
  constructor
  · intro h
    simp only [clearLines, if_pos h]
    simp
  · intro h
    simp only [clearLines, if_neg h]
    simp

/-- C4: after a completed placement (the `done` callback, running after the
refill), the game-over marker is set iff, for every piece still present in
the (post-refill) tray and every anchor in `[0, 8) × [0, 8)`, `canPlace` is
false on the current grid; empty slots are skipped. -/
theorem game_over_correct (g : GameState) (f1 f2 f3 : Piece)
    (h0 : g.gameOverMsg = none) :
    (doneCallback g f1 f2 f3).gameOverMsg ≠ none ↔
      ∀ po ∈ (refillStep { g with placing := false } f1 f2 f3).pieces,
        ∀ p : Piece, po = some p →
          ∀ r c : Nat, r < GRID_SIZE → c < GRID_SIZE →
            canPlace g.grid p (r : Int) (c : Int) = false := by
  rw [doneCallback_gameOverMsg]
  set P := (refillStep { g with placing := false } f1 f2 f3).pieces
  rcases hm : hasAnyMove g.grid P with _ | _
  · rw [if_neg Bool.false_ne_true]
    refine ⟨fun _ po hpo p hp r c hr hc => ?_, fun _ => by simp⟩
    by_contra hcp
    rw [Bool.not_eq_false] at hcp
    have h2 : hasAnyMove g.grid P = true :=
      (hasAnyMove_iff _ _).2 ⟨po, hpo, p, hp, r, c, hr, hc, hcp⟩
    rw [hm] at h2
    exact Bool.false_ne_true h2
  · rw [if_pos rfl, h0]
    simp only [ne_eq, not_true_eq_false, false_iff]
    intro hAll
    obtain ⟨po, hpo, p, hp, r, c, hr, hc, hcp⟩ := (hasAnyMove_iff _ _).1 hm
    have h2 := hAll po hpo p hp r c hr hc
    simp [h2] at hcp

/-- Witness for C4: the fixture state (single-cell piece in each slot, grid
almost empty) still has a move, so no game over is declared and both sides
of the equivalence are false. -/
theorem game_over_correct_witness :
    (doneCallback selState pieceS pieceS pieceS).gameOverMsg ≠ none ↔
      ∀ po ∈ (refillStep { selState with placing := false }
          pieceS pieceS pieceS).pieces,
        ∀ p : Piece, po = some p →
          ∀ r c : Nat, r < GRID_SIZE → c < GRID_SIZE →
            canPlace selState.grid p (r : Int) (c : Int) = false :=
  game_over_correct selState pieceS pieceS pieceS (by rfl)

/-- C6: the `done` callback refills the tray with the three fresh draws iff
every slot was empty immediately prior, and otherwise leaves the tray
exactly as it was — it never partially refills.  The conditional proved
here is the only place in the engine that writes more than one tray slot,
so the invariant holds in every reachable state. -/
theorem tray_refill_atomic (g : GameState) (f1 f2 f3 : Piece) :
    (doneCallback g f1 f2 f3).pieces =
      if g.pieces.all Option.isNone then [some f1, some f2, some f3]
      else g.pieces := by
  rw [doneCallback_pieces, refillStep_pieces]

/-- C7 counterexample: with `placing` set, slot 0 occupied and nothing
selected, `selectPiece 0` changes the state (it selects slot 0) — the
source's `selectPiece` has no `placing` guard, so the claim that every
`selectPiece` call during a pending clear is a no-op is false. -/
theorem selectPiece_not_guarded_by_placing :
    selectPiece placingState 0 ≠ placingState := by decide

/-- C7 as amended: while `placing` is true every `drop` call is a no-op,
and a `selectPiece` call — which the source does not guard — can change
only the selection: grid, score, tray, streak, best, lines, game-over
marker and the `placing` flag itself are untouched, so no second placement
can start mid-flight. -/
theorem placing_guard (g : GameState) (r c : Int) (idx : Nat)
    (f1 f2 f3 : Piece) (h : g.placing = true) :
    drop g r c f1 f2 f3 = some g ∧
    (selectPiece g idx).grid = g.grid ∧
    (selectPiece g idx).score = g.score ∧
    (selectPiece g idx).pieces = g.pieces ∧
    (selectPiece g idx).streak = g.streak ∧
    (selectPiece g idx).best = g.best ∧
    (selectPiece g idx).linesCleared = g.linesCleared ∧
    (selectPiece g idx).gameOverMsg = g.gameOverMsg ∧
    (selectPiece g idx).placing = true := by
  refine ⟨by simp [drop, h], ?_⟩
  unfold selectPiece
  split <;> simp [h]

/-- Witness for C7's amended statement at the concrete mid-placement
fixture. -/
theorem placing_guard_witness :
    drop placingState 0 0 pieceS pieceS pieceS = some placingState ∧
    (selectPiece placingState 0).grid = placingState.grid ∧
    (selectPiece placingState 0).score = placingState.score ∧
    (selectPiece placingState 0).pieces = placingState.pieces ∧
    (selectPiece placingState 0).streak = placingState.streak ∧
    (selectPiece placingState 0).best = placingState.best ∧
    (selectPiece placingState 0).linesCleared =
      placingState.linesCleared ∧
    (selectPiece placingState 0).gameOverMsg =
      placingState.gameOverMsg ∧
    (selectPiece placingState 0).placing = true :=
  placing_guard placingState 0 0 0 pieceS pieceS pieceS (by rfl)

/-- C8: with a piece selected, dropping it where `canPlace` is false leaves
the whole state unchanged (the guard returns before any mutation). -/
theorem drop_illegal_noop (g : GameState) (idx : Nat) (p : Piece)
    (r c : Int) (f1 f2 f3 : Piece)
    (hsel : g.selIdx = some idx)
    (hp : g.pieces.getD idx none = some p)
    (hcan : canPlace g.grid p r c = false) :
    drop g r c f1 f2 f3 = some g := by
  have hp' : g.pieces[idx]?.getD none = some p := by
    rw [← List.getD_eq_getElem?_getD]
    exact hp
  unfold drop
  rcases g.placing with _ | _
  · simp [hsel, hp, hp', hcan]
  · simp

/-- Witness for C8: dropping the selected single-cell piece at the
out-of-range anchor `(8, 0)` is a no-op on the fixture state. -/
theorem drop_illegal_noop_witness :
    drop selState 8 0 pieceS pieceS pieceS = some selState :=
  drop_illegal_noop selState 0 pieceS 8 0 pieceS pieceS pieceS
    (by rfl) (by rfl) (by decide)

/-- C9: starting a new game while a clear timeout is pending allocates a
fresh state object and repoints `G.current` at it; the pending callback
closed over the old object, so when it later fires it mutates only that
orphan — the new game's entire state (grid, tray, score, game-over marker)
is exactly the fresh `startGame` state. -/
theorem new_game_unaffected_by_pending_clear (w : World) (tid : Nat)
    (rows cols : List Nat) (storedBest : Nat) (p1 p2 p3 f1 f2 f3 : Piece)
    (hp : w.pending = some (tid, rows, cols))
    (ht : tid < w.heap.length) :
    getStateW (fireTimerW (startGameW w storedBest p1 p2 p3) f1 f2 f3) =
      some (startGame storedBest p1 p2 p3) := by
  have h1 : (startGameW w storedBest p1 p2 p3).pending =
      some (tid, rows, cols) := hp
  unfold fireTimerW
  rw [h1]
  unfold getStateW startGameW
  dsimp only
  rw [List.getElem?_set_ne (by omega)]
  exact List.getElem?_concat_length _ _

/-- Witness for C9 on the one-object world fixture with a pending clear of
row 0. -/
theorem new_game_unaffected_witness :
    getStateW (fireTimerW (startGameW worldFix 5 pieceS pieceS pieceS)
        pieceS pieceS pieceS) =
      some (startGame 5 pieceS pieceS pieceS) :=
  new_game_unaffected_by_pending_clear worldFix 0 [0] [] 5
    pieceS pieceS pieceS pieceS pieceS pieceS (by rfl) (by decide)

/-! The clearing loops, pointwise. -/

theorem setCellsNone_cons (grid : Grid) (q : Nat × Nat)
    (ps : List (Nat × Nat)) :
    setCellsNone grid (q :: ps) =
      setCellsNone (gridSetN grid q.1 q.2 none) ps := rfl

theorem setCellsNone_append (grid : Grid) (a b : List (Nat × Nat)) :
    setCellsNone grid (a ++ b) = setCellsNone (setCellsNone grid a) b :=
  List.foldl_append _ _ _ _

theorem gridGetN_setCellsNone (ps : List (Nat × Nat)) (grid : Grid)
    (hWF : GridWF grid)
    (hps : ∀ q ∈ ps, q.1 < GRID_SIZE ∧ q.2 < GRID_SIZE)
    (r c : Nat) (hr : r < GRID_SIZE) (hc : c < GRID_SIZE) :
    gridGetN (setCellsNone grid ps) r c =
      if (r, c) ∈ ps then none else gridGetN grid r c := by
  induction ps generalizing grid with
  | nil => simp [setCellsNone]
  | cons q t ih =>
    rw [setCellsNone_cons,
      ih _ (gridSetN_WF hWF _ _ _)
        (fun x hx => hps x (List.mem_cons_of_mem _ hx))]
    by_cases hmem : (r, c) ∈ t
    · rw [if_pos hmem, if_pos (List.mem_cons_of_mem _ hmem)]
    · by_cases hq : (r, c) = q
      · rw [if_neg hmem, if_pos (by rw [hq]; exact List.mem_cons_self _ _)]
        obtain ⟨h1, h2⟩ := hWF
        have hq1 : q.1 < grid.length := by
          rw [h1]; exact (hps q (List.mem_cons_self _ _)).1
        have hq2 : q.2 < (grid.getD q.1 []).length := by
          rw [getD_lt _ _ _ hq1, h2 _ (List.getElem_mem hq1)]
          exact (hps q (List.mem_cons_self _ _)).2
        rw [gridGetN_gridSetN _ _ _ _ _ _ hq1 hq2,
          if_pos ⟨congrArg Prod.fst hq.symm, congrArg Prod.snd hq.symm⟩]
      · rw [if_neg hmem, if_neg (by
          intro hx
          rcases List.mem_cons.1 hx with h | h
          exacts [hq h, hmem h])]
        exact gridGetN_gridSetN_ne _ _ _ _ _ _ (by
          rintro ⟨e1, e2⟩
          exact hq (by rw [← e1, ← e2]))

theorem rows_foldl_eq (rows : List Nat) (grid : Grid) :
    rows.foldl (fun gr r => (List.range GRID_SIZE).foldl
      (fun gr c => gridSetN gr r c none) gr) grid =
    setCellsNone grid
      (rows.flatMap fun r => (List.range GRID_SIZE).map fun c => (r, c)) := by
  induction rows generalizing grid with
  | nil => rfl
  | cons r t ih =>
    rw [List.foldl_cons, ih, List.flatMap_cons, setCellsNone_append]
    have h : List.foldl (fun gr c => gridSetN gr r c none) grid
        (List.range GRID_SIZE) =
        setCellsNone grid (List.map (fun c => (r, c))
          (List.range GRID_SIZE)) := by
      unfold setCellsNone
      rw [List.foldl_map]
    rw [h]

theorem cols_foldl_eq (cols : List Nat) (grid : Grid) :
    cols.foldl (fun gr c => (List.range GRID_SIZE).foldl
      (fun gr r => gridSetN gr r c none) gr) grid =
    setCellsNone grid
      (cols.flatMap fun c => (List.range GRID_SIZE).map fun r => (r, c)) := by
  induction cols generalizing grid with
  | nil => rfl
  | cons c t ih =>
    rw [List.foldl_cons, ih, List.flatMap_cons, setCellsNone_append]
    have h : List.foldl (fun gr r => gridSetN gr r c none) grid
        (List.range GRID_SIZE) =
        setCellsNone grid (List.map (fun r => (r, c))
          (List.range GRID_SIZE)) := by
      unfold setCellsNone
      rw [List.foldl_map]
    rw [h]

theorem clearCells_eq (grid : Grid) (rows cols : List Nat) :
    clearCells grid rows cols = setCellsNone grid (rowColCells rows cols) := by
  unfold clearCells rowColCells
  rw [setCellsNone_append, rows_foldl_eq, cols_foldl_eq]

theorem mem_rowColCells (rows cols : List Nat) (r c : Nat) :
    (r, c) ∈ rowColCells rows cols ↔
      (r ∈ rows ∧ c < GRID_SIZE) ∨ (c ∈ cols ∧ r < GRID_SIZE) := by
  unfold rowColCells
  rw [List.mem_append]
  constructor
  · rintro (h | h)
    · obtain ⟨x, hx, h2⟩ := List.mem_flatMap.1 h
      obtain ⟨y, hy, h3⟩ := List.mem_map.1 h2
      rw [Prod.mk.injEq] at h3
      obtain ⟨h4, h5⟩ := h3
      subst h4
      subst h5
      exact Or.inl ⟨hx, List.mem_range.1 hy⟩
    · obtain ⟨x, hx, h2⟩ := List.mem_flatMap.1 h
      obtain ⟨y, hy, h3⟩ := List.mem_map.1 h2
      rw [Prod.mk.injEq] at h3
      obtain ⟨h4, h5⟩ := h3
      subst h4
      subst h5
      exact Or.inr ⟨hx, List.mem_range.1 hy⟩
  · rintro (⟨h1, h2⟩ | ⟨h1, h2⟩)
    · exact Or.inl (List.mem_flatMap.2
        ⟨r, h1, List.mem_map.2 ⟨c, List.mem_range.2 h2, rfl⟩⟩)
    · exact Or.inr (List.mem_flatMap.2
        ⟨c, h1, List.mem_map.2 ⟨r, List.mem_range.2 h2, rfl⟩⟩)

theorem rowColCells_bounds (rows cols : List Nat)
    (hrows : ∀ x ∈ rows, x < GRID_SIZE)
    (hcols : ∀ x ∈ cols, x < GRID_SIZE) :
    ∀ q ∈ rowColCells rows cols, q.1 < GRID_SIZE ∧ q.2 < GRID_SIZE := by
  rintro ⟨a, b⟩ hq
  rw [mem_rowColCells] at hq
  rcases hq with ⟨h1, h2⟩ | ⟨h1, h2⟩
  · exact ⟨hrows a h1, h2⟩
  · exact ⟨h2, hcols b h1⟩

theorem rowsToClear_lt (grid : Grid) :
    ∀ x ∈ rowsToClear grid, x < GRID_SIZE := fun x hx =>
  List.mem_range.1 (List.mem_of_mem_filter hx)

theorem colsToClear_lt (grid : Grid) :
    ∀ x ∈ colsToClear grid, x < GRID_SIZE := fun x hx =>
  List.mem_range.1 (List.mem_of_mem_filter hx)

/-- A row is selected for clearing iff all 8 of its cells are Filled. -/
theorem mem_rowsToClear {grid : Grid} (hWF : GridWF grid)
    (hne : NoEmptyColor grid) (r : Nat) :
    r ∈ rowsToClear grid ↔
      r < GRID_SIZE ∧
        ∀ c : Nat, c < GRID_SIZE → gridGetN grid r c ≠ none := by
  unfold rowsToClear
  rw [List.mem_filter, List.mem_range]
  apply and_congr_right
  intro hr
  rw [List.all_eq_true]
  obtain ⟨h1, h2⟩ := hWF
  have hrlen : r < grid.length := by omega
  have hrow : grid.getD r [] = grid[r] := getD_lt _ _ _ hrlen
  have hlen : grid[r].length = GRID_SIZE := h2 _ (List.getElem_mem hrlen)
  rw [hrow]
  constructor
  · intro h c hc
    have hc' : c < grid[r].length := by omega
    have ht := h grid[r][c] (List.getElem_mem hc')
    unfold gridGetN
    rw [hrow, getD_lt _ _ _ hc']
    intro hnone
    rw [hnone] at ht
    simp [jsTruthy] at ht
  · intro h x hx
    obtain ⟨i, hi, hix⟩ := List.mem_iff_getElem.1 hx
    have ht := h i (by omega)
    unfold gridGetN at ht
    rw [hrow, getD_lt _ _ _ hi, hix] at ht
    rcases hx2 : x with _ | s
    · rw [hx2] at ht
      exact absurd rfl ht
    · have hs : x ≠ some "" := hne grid[r] (List.getElem_mem hrlen) x hx
      exact jsTruthy_some fun he => hs (by rw [hx2, he])

/-- A column is selected for clearing iff all 8 of its cells are Filled. -/
theorem mem_colsToClear {grid : Grid} (hWF : GridWF grid)
    (hne : NoEmptyColor grid) (c : Nat) :
    c ∈ colsToClear grid ↔
      c < GRID_SIZE ∧
        ∀ r : Nat, r < GRID_SIZE → gridGetN grid r c ≠ none := by
  unfold colsToClear
  rw [List.mem_filter, List.mem_range]
  apply and_congr_right
  intro hc
  rw [List.all_eq_true]
  obtain ⟨h1, h2⟩ := hWF
  constructor
  · intro h r hr
    have hrlen : r < grid.length := by omega
    have ht := h grid[r] (List.getElem_mem hrlen)
    have hc' : c < grid[r].length := by
      rw [h2 _ (List.getElem_mem hrlen)]; omega
    rw [getD_lt _ _ _ hc'] at ht
    unfold gridGetN
    rw [getD_lt _ _ _ hrlen, getD_lt _ _ _ hc']
    intro hnone
    rw [hnone] at ht
    simp [jsTruthy] at ht
  · intro h row hrow
    obtain ⟨i, hi, hirow⟩ := List.mem_iff_getElem.1 hrow
    have ht := h i (by omega)
    unfold gridGetN at ht
    rw [getD_lt _ _ _ hi, hirow] at ht
    have hc' : c < row.length := by rw [h2 row hrow]; omega
    rw [getD_lt _ _ _ hc'] at ht
    rw [getD_lt _ _ _ hc']
    rcases hx2 : row[c] with _ | s
    · rw [hx2] at ht
      exact absurd rfl ht
    · have hs : row[c] ≠ some "" :=
        hne row hrow _ (List.getElem_mem hc')
      exact jsTruthy_some fun he => hs (by rw [hx2, he])

/-- C3: immediately after a placement, a row (column) is selected for
clearing iff all 8 of its cells are Filled, both read from the same
post-placement grid; and the cells set back to Empty by the delayed clear
are exactly those in some full row or some full column (an intersection
cell is cleared once, while its row and its column still count separately:
`count` in C2 is the sum of both list lengths). -/
theorem clear_correct (g : GameState) (f1 f2 f3 : Piece)
    (hWF : GridWF g.grid) (hne : NoEmptyColor g.grid) :
    (∀ r : Nat, r ∈ rowsToClear g.grid ↔
      r < GRID_SIZE ∧
        ∀ c : Nat, c < GRID_SIZE → gridGetN g.grid r c ≠ none) ∧
    (∀ c : Nat, c ∈ colsToClear g.grid ↔
      c < GRID_SIZE ∧
        ∀ r : Nat, r < GRID_SIZE → gridGetN g.grid r c ≠ none) ∧
    (∀ r c : Nat, r < GRID_SIZE → c < GRID_SIZE →
      gridGetN (clearLines g f1 f2 f3).grid r c =
        if r ∈ rowsToClear g.grid ∨ c ∈ colsToClear g.grid then none
        else gridGetN g.grid r c) := by
  refine ⟨fun r => mem_rowsToClear hWF hne r,
    fun c => mem_colsToClear hWF hne c, ?_⟩
  intro r c hr hc
  simp only [clearLines]
  split
  · rename_i h
    have hrows : rowsToClear g.grid = [] := List.length_eq_zero.1 (by omega)
    have hcols : colsToClear g.grid = [] := List.length_eq_zero.1 (by omega)
    rw [doneCallback_grid]
    simp [hrows, hcols]
  · rw [doneCallback_grid, clearFire_grid, clearBonusState_grid,
      clearCells_eq,
      gridGetN_setCellsNone _ _ hWF
        (rowColCells_bounds _ _ (rowsToClear_lt _) (colsToClear_lt _))
        r c hr hc]
    have hcond : (r, c) ∈ rowColCells (rowsToClear g.grid)
        (colsToClear g.grid) ↔
        (r ∈ rowsToClear g.grid ∨ c ∈ colsToClear g.grid) := by
      rw [mem_rowColCells]
      constructor
      · rintro (⟨h1, -⟩ | ⟨h1, -⟩)
        exacts [Or.inl h1, Or.inr h1]
      · rintro (h1 | h1)
        exacts [Or.inl ⟨h1, hc⟩, Or.inr ⟨h1, hr⟩]
    simp only [hcond]

/-- Witness for C3 on the post-placement fixture whose row 0 is full: row 0
is detected and its 8 cells are cleared. -/
theorem clear_correct_witness :
    (∀ r : Nat, r ∈ rowsToClear rowFullState.grid ↔
      r < GRID_SIZE ∧
        ∀ c : Nat, c < GRID_SIZE →
          gridGetN rowFullState.grid r c ≠ none) ∧
    (∀ c : Nat, c ∈ colsToClear rowFullState.grid ↔
      c < GRID_SIZE ∧
        ∀ r : Nat, r < GRID_SIZE →
          gridGetN rowFullState.grid r c ≠ none) ∧
    (∀ r c : Nat, r < GRID_SIZE → c < GRID_SIZE →
      gridGetN (clearLines rowFullState pieceS pieceS pieceS).grid r c =
        if r ∈ rowsToClear rowFullState.grid ∨
            c ∈ colsToClear rowFullState.grid then none
        else gridGetN rowFullState.grid r c) :=
  clear_correct rowFullState pieceS pieceS pieceS (by decide) (by decide)

/-! The placement loop, pointwise. -/

theorem gridGet_gridSetI_ne (grid : Grid) (a b i j : Int) (v : Cell)
    (h : ¬(i = a ∧ j = b)) :
    gridGet (gridSetI grid a b v) i j = gridGet grid i j := by
  unfold gridGet gridSetI
  by_cases hab : 0 ≤ a ∧ 0 ≤ b
  · rw [if_pos hab]
    by_cases hij : 0 ≤ i ∧ 0 ≤ j
    · rw [if_pos hij, if_pos hij]
      apply gridGetN_gridSetN_ne
      rintro ⟨h1, h2⟩
      exact h ⟨by omega, by omega⟩
    · rw [if_neg hij, if_neg hij]
  · rw [if_neg hab]

theorem gridGet_gridSetI_self (grid : Grid) (a b : Int) (v : Cell)
    (hWF : GridWF grid) (ha : 0 ≤ a) (ha8 : a < (GRID_SIZE : Int))
    (hb : 0 ≤ b) (hb8 : b < (GRID_SIZE : Int)) :
    gridGet (gridSetI grid a b v) a b = v := by
  unfold gridGet gridSetI
  rw [if_pos ⟨ha, hb⟩, if_pos ⟨ha, hb⟩]
  obtain ⟨h1, h2⟩ := hWF
  have h3 : a.toNat < grid.length := by omega
  have h4 : b.toNat < (grid.getD a.toNat []).length := by
    rw [getD_lt _ _ _ h3, h2 _ (List.getElem_mem h3)]
    omega
  rw [gridGetN_gridSetN _ _ _ _ _ _ h3 h4, if_pos ⟨rfl, rfl⟩]

theorem placeCellsList_cons (grid : Grid) (color : String) (r c : Int)
    (e : Int × Int) (t : List (Int × Int)) :
    placeCellsList grid color r c (e :: t) =
      placeCellsList (gridSetI grid (r + e.1) (c + e.2) (some color))
        color r c t := rfl

theorem placeCellsList_notMem (grid : Grid) (color : String) (r c : Int)
    (l : List (Int × Int)) (i j : Int)
    (h : ∀ d ∈ l, ¬(i = r + d.1 ∧ j = c + d.2)) :
    gridGet (placeCellsList grid color r c l) i j = gridGet grid i j := by
  induction l generalizing grid with
  | nil => rfl
  | cons e t ih =>
    rw [placeCellsList_cons,
      ih _ fun d hd => h d (List.mem_cons_of_mem _ hd)]
    exact gridGet_gridSetI_ne _ _ _ _ _ _ (h e (List.mem_cons_self _ _))

theorem placeCellsList_WF {grid : Grid} (h : GridWF grid) (color : String)
    (r c : Int) (l : List (Int × Int)) :
    GridWF (placeCellsList grid color r c l) := by
  induction l generalizing grid with
  | nil => exact h
  | cons e t ih => exact ih (gridSetI_WF h _ _ _)

theorem placeCellsList_mem (l : List (Int × Int)) (grid : Grid)
    (color : String) (r c : Int)
    (hnd : l.Nodup) (hWF : GridWF grid)
    (hb : ∀ d ∈ l, 0 ≤ r + d.1 ∧ r + d.1 < (GRID_SIZE : Int) ∧
      0 ≤ c + d.2 ∧ c + d.2 < (GRID_SIZE : Int))
    (d : Int × Int) (hd : d ∈ l) :
    gridGet (placeCellsList grid color r c l) (r + d.1) (c + d.2) =
      some color := by
  induction l generalizing grid with
  | nil => cases hd
  | cons e t ih =>
    obtain ⟨hnotmem, hndt⟩ := List.nodup_cons.1 hnd
    rw [placeCellsList_cons]
    rcases List.mem_cons.1 hd with rfl | hdt
    · rw [placeCellsList_notMem]
      · obtain ⟨h1, h2, h3, h4⟩ := hb d (List.mem_cons_self _ _)
        exact gridGet_gridSetI_self _ _ _ _ hWF h1 h2 h3 h4
      · rintro x hx ⟨e1, e2⟩
        apply hnotmem
        have hx1 : x.1 = d.1 := by omega
        have hx2 : x.2 = d.2 := by omega
        rwa [show x = d from Prod.ext hx1 hx2] at hx
    · exact ih _ hndt (gridSetI_WF hWF _ _ _)
        (fun x hx => hb x (List.mem_cons_of_mem _ hx)) hdt

/-- C5: a legal drop of the selected shape first runs the placement step
(source lines 184–188): every target cell was Empty and becomes Filled with
the shape's color, no other grid cell changes, the target cells are
pairwise distinct and number exactly `shape.cellCount`, the score grows by
exactly `shape.cellCount` (before any clear bonus), the shape's tray slot
becomes empty and the selection is cleared. -/
theorem placement_additivity (g : GameState) (idx : Nat) (p : Piece)
    (r c : Int) (f1 f2 f3 : Piece)
    (hpl : g.placing = false) (hsel : g.selIdx = some idx)
    (hp : g.pieces.getD idx none = some p)
    (hcan : canPlace g.grid p r c = true)
    (hWF : GridWF g.grid) (hne : NoEmptyColor g.grid)
    (hnd : p.cells.Nodup) :
    drop g r c f1 f2 f3 =
      some (clearLines (placeStep g idx p r c) f1 f2 f3) ∧
    (∀ d ∈ p.cells, gridGet g.grid (r + d.1) (c + d.2) = none) ∧
    (∀ d ∈ p.cells,
      gridGet (placeStep g idx p r c).grid (r + d.1) (c + d.2) =
        some p.color) ∧
    (∀ i j : Int, (∀ d ∈ p.cells, ¬(i = r + d.1 ∧ j = c + d.2)) →
      gridGet (placeStep g idx p r c).grid i j = gridGet g.grid i j) ∧
    (p.cells.map fun d => (r + d.1, c + d.2)).Nodup ∧
    (p.cells.map fun d => (r + d.1, c + d.2)).length = p.cells.length ∧
    (placeStep g idx p r c).score = g.score + p.cells.length ∧
    (placeStep g idx p r c).pieces.getD idx none = none ∧
    (placeStep g idx p r c).selIdx = none := by
  have hbounds := (canPlace_iff_truthy g.grid p r c).1 hcan
  refine ⟨?_, ?_, ?_, ?_, ?_, by simp, rfl, ?_, rfl⟩
  · have hp' : g.pieces[idx]?.getD none = some p := by
      rw [← List.getD_eq_getElem?_getD]
      exact hp
    unfold drop
    simp [hpl, hsel, hp, hp', hcan]
  · intro d hd
    obtain ⟨-, -, -, -, h5⟩ := hbounds d hd
    exact (jsTruthy_eq_false_iff hne _ _).1 h5
  · intro d hd
    show gridGet (placeCellsList g.grid p.color r c p.cells) _ _ = _
    exact placeCellsList_mem p.cells g.grid p.color r c hnd hWF
      (fun x hx => ⟨(hbounds x hx).1, (hbounds x hx).2.1,
        (hbounds x hx).2.2.1, (hbounds x hx).2.2.2.1⟩) d hd
  · intro i j hij
    exact placeCellsList_notMem g.grid p.color r c p.cells i j hij
  · refine List.Nodup.map ?_ hnd
    rintro ⟨x1, x2⟩ ⟨y1, y2⟩ he
    rw [Prod.mk.injEq] at he
    obtain ⟨e1, e2⟩ := he
    rw [Prod.mk.injEq]
    constructor <;> omega
  · show (g.pieces.set idx none).getD idx none = none
    by_cases hlen : idx < g.pieces.length
    · exact getD_set_self _ _ _ _ hlen
    · rw [List.set_eq_of_length_le (by omega), List.getD_eq_getElem?_getD,
        List.getElem?_eq_none (by omega)]
      rfl

/-- Witness for C5: the single-cell piece selected in slot 0 of the fixture
state, legally dropped at `(5, 5)`. -/
theorem placement_additivity_witness :
    drop selState 5 5 pieceS pieceS pieceS =
      some (clearLines (placeStep selState 0 pieceS 5 5)
        pieceS pieceS pieceS) ∧
    (∀ d ∈ pieceS.cells,
      gridGet selState.grid (5 + d.1) (5 + d.2) = none) ∧
    (∀ d ∈ pieceS.cells,
      gridGet (placeStep selState 0 pieceS 5 5).grid (5 + d.1) (5 + d.2) =
        some pieceS.color) ∧
    (∀ i j : Int, (∀ d ∈ pieceS.cells, ¬(i = 5 + d.1 ∧ j = 5 + d.2)) →
      gridGet (placeStep selState 0 pieceS 5 5).grid i j =
        gridGet selState.grid i j) ∧
    (pieceS.cells.map fun d => (5 + d.1, 5 + d.2)).Nodup ∧
    (pieceS.cells.map fun d => (5 + d.1, 5 + d.2)).length =
      pieceS.cells.length ∧
    (placeStep selState 0 pieceS 5 5).score =
      selState.score + pieceS.cells.length ∧
    (placeStep selState 0 pieceS 5 5).pieces.getD 0 none = none ∧
    (placeStep selState 0 pieceS 5 5).selIdx = none :=
  placement_additivity selState 0 pieceS 5 5 pieceS pieceS pieceS
    (by rfl) (by rfl) (by rfl) (by decide) (by decide) (by decide)
    (by decide)

end BlockGame
